import Mathlib

/-
Verification development for the `asyncio-atexit` package
(source file `asyncio_atexit.py`).

The Python module keeps a registry of per-event-loop shutdown callbacks:
`register`/`unregister` manage a per-loop callback list, the loop's `close`
method is monkey-patched to drain that list before the original close runs,
and a process-exit (`atexit`) hook forces the close if the application never
calls it.

The embedding below is a shallow model of that module, translated directly
from the source:

* A callback is identified by a numeric id (Python object identity, used by
  `list.remove`) together with its runtime behaviour: it can raise
  synchronously, return a plain value, or return an awaitable whose awaiting
  either completes or raises.  Raised errors are split into `Exception`
  subclasses (caught by the `except Exception` handlers in the source) and
  other `BaseException`s such as `KeyboardInterrupt` (not caught).
* `run_asyncio_atexits` embeds the coroutine `_run_asyncio_atexits`: it walks
  the callback list, producing a trace of invocation/await events, the stderr
  diagnostics it prints, and the error it propagates (if any).
* `LoopWorld` is the state associated with one event loop: the loop's
  attributes (`close`, `_atexit_orig_close`), its registry entry (membership
  in the module-level `WeakKeyDictionary`, the callback list, the captured
  close reference), the loop's `atexit` hook, the diagnostic stream, and two
  instrumentation counters (number of `_RegistryEntry` constructions and
  number of assignments to `_atexit_orig_close`).  The source only ever
  touches the entry of the one loop an operation targets, so the per-loop
  projection is faithful.
-/

namespace AsyncioAtexit

/-- A raised Python error: either an `Exception` subclass (caught by the
`except Exception` handlers in the source) or a `BaseException` that is not
an `Exception`, such as `KeyboardInterrupt` or `SystemExit`. -/
inductive Failure
  | exc
  | base
deriving DecidableEq, Repr

/-- The behaviour of one zero-argument callback when invoked:
raise synchronously, return a non-awaitable value, or return an awaitable
whose awaiting either completes (`none`) or raises the given failure. -/
inductive CbBehavior
  | raises (f : Failure)
  | returnsValue
  | returnsAwaitable (awaited : Option Failure)
deriving DecidableEq, Repr

/-- A callback: a Python function object, identified by `id` (object
identity, the equality `list.remove` uses) with behaviour `behavior`. -/
structure Cb where
  id : Nat
  behavior : CbBehavior
deriving DecidableEq, Repr

/-- Observable events of a drain: callback `i` is invoked; the runner starts
awaiting the awaitable returned by callback `i`; that awaitable completes;
a diagnostic line for callback `i` is printed. -/
inductive Ev
  | invoke (i : Nat)
  | beginAwait (i : Nat)
  | endAwait (i : Nat)
  | report (i : Nat)
deriving DecidableEq, Repr

/-- A line on the diagnostic stream (stderr): the message printed by
`_run_asyncio_atexits` for a failing callback, or the message printed by
`_atexit_close_loop` when the forced close raises. -/
inductive Diag
  | cbError (c : Cb)
  | closeError
deriving DecidableEq, Repr

/-- Invoking a callback (`f = callback()` in the source): an error, or the
returned value — `none` for a non-awaitable value, `some o` for an awaitable
whose awaiting yields outcome `o`. -/
def callCb : CbBehavior → Except Failure (Option (Option Failure))
  | CbBehavior.raises f => Except.error f
  | CbBehavior.returnsValue => Except.ok none
  | CbBehavior.returnsAwaitable o => Except.ok (some o)

/-- The `try` block of the loop body of `_run_asyncio_atexits`:
`f = callback(); if inspect.isawaitable(f): await f`.  Returns the events of
this iteration and the error escaping the block, if any. -/
def tryBody (i : Nat) (b : CbBehavior) : List Ev × Option Failure :=
  match callCb b with
  | Except.error f => ([Ev.invoke i], some f)
  | Except.ok none => ([Ev.invoke i], none)
  | Except.ok (some none) => ([Ev.invoke i, Ev.beginAwait i, Ev.endAwait i], none)
  | Except.ok (some (some f)) => ([Ev.invoke i, Ev.beginAwait i], some f)

/-- The loop of `_run_asyncio_atexits`, starting at position `i` of the
callback list.  Each iteration runs `tryBody`; an `Exception` is caught by
the `except Exception` clause, which prints a diagnostic and continues with
the next callback; any other `BaseException` escapes the coroutine and
aborts the drain.  Result: (event trace, diagnostics printed, propagated
error). -/
def drainFrom : Nat → List Cb → List Ev × List Diag × Option Failure
  | _, [] => ([], [], none)
  | i, c :: rest =>
    match tryBody i c.behavior with
    | (evs, none) =>
      let r := drainFrom (i + 1) rest
      (evs ++ r.1, r.2.1, r.2.2)
    | (evs, some Failure.exc) =>
      let r := drainFrom (i + 1) rest
      (evs ++ [Ev.report i] ++ r.1, Diag.cbError c :: r.2.1, r.2.2)
    | (evs, some Failure.base) => (evs, [], some Failure.base)

/-- Embeds `_run_asyncio_atexits(loop, callbacks)`: drain the whole list
from position 0. -/
def run_asyncio_atexits (cbs : List Cb) : List Ev × List Diag × Option Failure :=
  drainFrom 0 cbs

/-- `true` exactly when invoking this callback lets a non-`Exception`
`BaseException` escape (synchronously or while its awaitable is awaited). -/
def propagatesBase : CbBehavior → Bool
  | CbBehavior.raises Failure.base => true
  | CbBehavior.returnsAwaitable (some Failure.base) => true
  | _ => false

/-- `true` exactly when invoking this callback raises an `Exception`
(synchronously or while its awaitable is awaited). -/
def raisesExc : CbBehavior → Bool
  | CbBehavior.raises Failure.exc => true
  | CbBehavior.returnsAwaitable (some Failure.exc) => true
  | _ => false

/-- A callback whose failures, if any, are `Exception`s — the failure domain
of the specification (its drain contract speaks only of thrown exceptions,
which the runner catches). -/
def noBaseCb (c : Cb) : Bool := !propagatesBase c.behavior

/-- A callback that raises an `Exception` during the drain. -/
def raisesExcCb (c : Cb) : Bool := raisesExc c.behavior

/-- Modelled from the spec: the events one callback must contribute to the
drain according to the drain-algorithm contract — invoke it; if the
invocation yields an awaitable, suspend until it completes before anything
of the next callback happens; a failure is reported and the drain moves on. -/
def specBlock (i : Nat) (b : CbBehavior) : List Ev :=
  match b with
  | CbBehavior.raises _ => [Ev.invoke i, Ev.report i]
  | CbBehavior.returnsValue => [Ev.invoke i]
  | CbBehavior.returnsAwaitable none => [Ev.invoke i, Ev.beginAwait i, Ev.endAwait i]
  | CbBehavior.returnsAwaitable (some _) => [Ev.invoke i, Ev.beginAwait i, Ev.report i]

/-- Modelled from the spec: the strictly sequential trace — the per-callback
blocks of `specBlock`, concatenated in registration order starting at
position `i`: all events of a callback precede every event of later ones. -/
def specTraceFrom : Nat → List Cb → List Ev
  | _, [] => []
  | i, c :: rest => specBlock i c.behavior ++ specTraceFrom (i + 1) rest

/-- Modelled from the spec: the sequential trace of a whole callback list. -/
def specSequentialTrace (cbs : List Cb) : List Ev := specTraceFrom 0 cbs

/-- The diagnostics the spec requires: one report per callback that raised
an `Exception`, in registration order. -/
def excReports (cbs : List Cb) : List Diag :=
  (cbs.filter raisesExcCb).map Diag.cbError

/-- Is this event an invocation? -/
def isInvoke : Ev → Bool
  | Ev.invoke _ => true
  | _ => false

/-- The invocation events of a trace, in order. -/
def invokesOf (t : List Ev) : List Ev := t.filter isInvoke

/-- The invocation events `invoke i, invoke (i+1), …` for `n` consecutive
callbacks starting at position `i`. -/
def allInvokes : Nat → Nat → List Ev
  | _, 0 => []
  | i, n + 1 => Ev.invoke i :: allInvokes (i + 1) n

lemma invokesOf_append (a b : List Ev) :
    invokesOf (a ++ b) = invokesOf a ++ invokesOf b := by
  simp [invokesOf, List.filter_append]

lemma invokesOf_specBlock (i : Nat) (b : CbBehavior) :
    invokesOf (specBlock i b) = [Ev.invoke i] := by
  cases b with
  | raises f => simp [invokesOf, specBlock, isInvoke]
  | returnsValue => simp [invokesOf, specBlock, isInvoke]
  | returnsAwaitable o => cases o <;> simp [invokesOf, specBlock, isInvoke]

lemma invokesOf_specTraceFrom (cbs : List Cb) :
    ∀ i, invokesOf (specTraceFrom i cbs) = allInvokes i cbs.length := by
  induction cbs with
  | nil => intro i; rfl
  | cons c rest ih =>
    intro i
    rw [specTraceFrom, invokesOf_append, invokesOf_specBlock, ih (i + 1)]
    rfl

lemma drainFrom_noBase (cbs : List Cb) :
    ∀ i, (∀ c ∈ cbs, propagatesBase c.behavior = false) →
      drainFrom i cbs = (specTraceFrom i cbs, excReports cbs, none) := by
  induction cbs with
  | nil => intro i _; rfl
  | cons c rest ih =>
    intro i h
    have hc : propagatesBase c.behavior = false := h c (List.mem_cons_self c rest)
    have hrest : ∀ x ∈ rest, propagatesBase x.behavior = false :=
      fun x hx => h x (List.mem_cons_of_mem c hx)
    cases hb : c.behavior with
    | raises f =>
      cases f with
      | exc =>
        simp [drainFrom, tryBody, callCb, hb, specTraceFrom, specBlock,
              excReports, raisesExcCb, raisesExc, ih (i + 1) hrest]
      | base => rw [hb] at hc; simp [propagatesBase] at hc
    | returnsValue =>
      simp [drainFrom, tryBody, callCb, hb, specTraceFrom, specBlock,
            excReports, raisesExcCb, raisesExc, ih (i + 1) hrest]
    | returnsAwaitable o =>
      cases o with
      | none =>
        simp [drainFrom, tryBody, callCb, hb, specTraceFrom, specBlock,
              excReports, raisesExcCb, raisesExc, ih (i + 1) hrest]
      | some f =>
        cases f with
        | exc =>
          simp [drainFrom, tryBody, callCb, hb, specTraceFrom, specBlock,
                excReports, raisesExcCb, raisesExc, ih (i + 1) hrest]
        | base => rw [hb] at hc; simp [propagatesBase] at hc

lemma all_noBaseCb_forall {cbs : List Cb} (h : cbs.all noBaseCb = true) :
    ∀ c ∈ cbs, propagatesBase c.behavior = false := by
  intro c hc
  have := List.all_eq_true.mp h c hc
  simpa [noBaseCb] using this

/-- Claim C1: draining during the patched close invokes every surviving
callback exactly once, in registration order, and an awaitable returned by a
callback is awaited to completion before the next callback is invoked — the
trace is exactly the strictly sequential per-callback blocks, and its
invocation events are `invoke 0, …, invoke (n-1)` in order.  (The failure
domain is the spec's: callback failures are `Exception`s.) -/
theorem drain_runs_all_sequentially (cbs : List Cb)
    (h : cbs.all noBaseCb = true) :
    (run_asyncio_atexits cbs).1 = specSequentialTrace cbs ∧
    invokesOf (run_asyncio_atexits cbs).1 = allInvokes 0 cbs.length := by
  rw [run_asyncio_atexits, drainFrom_noBase cbs 0 (all_noBaseCb_forall h)]
  exact ⟨rfl, invokesOf_specTraceFrom cbs 0⟩

theorem drain_runs_all_sequentially_witness :
    ([Cb.mk 0 CbBehavior.returnsValue, Cb.mk 1 (CbBehavior.raises Failure.exc),
      Cb.mk 2 (CbBehavior.returnsAwaitable none),
      Cb.mk 3 (CbBehavior.returnsAwaitable (some Failure.exc))].all noBaseCb = true) ∧
    ((run_asyncio_atexits
        [Cb.mk 0 CbBehavior.returnsValue, Cb.mk 1 (CbBehavior.raises Failure.exc),
         Cb.mk 2 (CbBehavior.returnsAwaitable none),
         Cb.mk 3 (CbBehavior.returnsAwaitable (some Failure.exc))]).1 =
      specSequentialTrace
        [Cb.mk 0 CbBehavior.returnsValue, Cb.mk 1 (CbBehavior.raises Failure.exc),
         Cb.mk 2 (CbBehavior.returnsAwaitable none),
         Cb.mk 3 (CbBehavior.returnsAwaitable (some Failure.exc))] ∧
     invokesOf (run_asyncio_atexits
        [Cb.mk 0 CbBehavior.returnsValue, Cb.mk 1 (CbBehavior.raises Failure.exc),
         Cb.mk 2 (CbBehavior.returnsAwaitable none),
         Cb.mk 3 (CbBehavior.returnsAwaitable (some Failure.exc))]).1 =
      allInvokes 0 4) :=
  ⟨by decide,
   drain_runs_all_sequentially
     [Cb.mk 0 CbBehavior.returnsValue, Cb.mk 1 (CbBehavior.raises Failure.exc),
      Cb.mk 2 (CbBehavior.returnsAwaitable none),
      Cb.mk 3 (CbBehavior.returnsAwaitable (some Failure.exc))] (by decide)⟩

/-- Claim C2: every callback whose invocation raises an `Exception` —
synchronously or while awaiting — is caught and reported to the diagnostic
stream, the drain still invokes every callback, and nothing propagates to
the caller of close (the drain never aborts early on such failures). -/
theorem drain_isolates_exception_failures (cbs : List Cb)
    (h : cbs.all noBaseCb = true) :
    (run_asyncio_atexits cbs).2.2 = none ∧
    (run_asyncio_atexits cbs).2.1 = excReports cbs ∧
    invokesOf (run_asyncio_atexits cbs).1 = allInvokes 0 cbs.length := by
  rw [run_asyncio_atexits, drainFrom_noBase cbs 0 (all_noBaseCb_forall h)]
  exact ⟨rfl, rfl, invokesOf_specTraceFrom cbs 0⟩

theorem drain_isolates_exception_failures_witness :
    ([Cb.mk 7 (CbBehavior.raises Failure.exc), Cb.mk 8 CbBehavior.returnsValue,
      Cb.mk 9 (CbBehavior.returnsAwaitable (some Failure.exc))].all noBaseCb = true) ∧
    ((run_asyncio_atexits
        [Cb.mk 7 (CbBehavior.raises Failure.exc), Cb.mk 8 CbBehavior.returnsValue,
         Cb.mk 9 (CbBehavior.returnsAwaitable (some Failure.exc))]).2.2 = none ∧
     (run_asyncio_atexits
        [Cb.mk 7 (CbBehavior.raises Failure.exc), Cb.mk 8 CbBehavior.returnsValue,
         Cb.mk 9 (CbBehavior.returnsAwaitable (some Failure.exc))]).2.1 =
       excReports
         [Cb.mk 7 (CbBehavior.raises Failure.exc), Cb.mk 8 CbBehavior.returnsValue,
          Cb.mk 9 (CbBehavior.returnsAwaitable (some Failure.exc))] ∧
     invokesOf (run_asyncio_atexits
        [Cb.mk 7 (CbBehavior.raises Failure.exc), Cb.mk 8 CbBehavior.returnsValue,
         Cb.mk 9 (CbBehavior.returnsAwaitable (some Failure.exc))]).1 =
       allInvokes 0 3) :=
  ⟨by decide,
   drain_isolates_exception_failures
     [Cb.mk 7 (CbBehavior.raises Failure.exc), Cb.mk 8 CbBehavior.returnsValue,
      Cb.mk 9 (CbBehavior.returnsAwaitable (some Failure.exc))] (by decide)⟩

lemma drainFrom_base_abort (pre : List Cb) (c : Cb) (post : List Cb) :
    ∀ i, (∀ x ∈ pre, propagatesBase x.behavior = false) →
      propagatesBase c.behavior = true →
      (drainFrom i (pre ++ c :: post)).2.2 = some Failure.base ∧
      invokesOf (drainFrom i (pre ++ c :: post)).1 = allInvokes i (pre.length + 1) := by
  induction pre with
  | nil =>
    intro i _ h2
    cases hb : c.behavior with
    | raises f =>
      cases f with
      | exc => rw [hb] at h2; simp [propagatesBase] at h2
      | base =>
        simp [drainFrom, tryBody, callCb, hb, invokesOf, isInvoke, allInvokes]
    | returnsValue => rw [hb] at h2; simp [propagatesBase] at h2
    | returnsAwaitable o =>
      cases o with
      | none => rw [hb] at h2; simp [propagatesBase] at h2
      | some f =>
        cases f with
        | exc => rw [hb] at h2; simp [propagatesBase] at h2
        | base =>
          simp [drainFrom, tryBody, callCb, hb, invokesOf, isInvoke, allInvokes]
  | cons x pre ih =>
    intro i h1 h2
    have hx : propagatesBase x.behavior = false := h1 x (List.mem_cons_self x pre)
    have hpre : ∀ y ∈ pre, propagatesBase y.behavior = false :=
      fun y hy => h1 y (List.mem_cons_of_mem x hy)
    obtain ⟨ihA, ihB⟩ := ih (i + 1) hpre h2
    simp only [invokesOf] at ihB
    cases hb : x.behavior with
    | raises f =>
      cases f with
      | exc =>
        simp [drainFrom, tryBody, callCb, hb, invokesOf, isInvoke, allInvokes, ihA, ihB]
      | base => rw [hb] at hx; simp [propagatesBase] at hx
    | returnsValue =>
      simp [drainFrom, tryBody, callCb, hb, invokesOf, isInvoke, allInvokes, ihA, ihB]
    | returnsAwaitable o =>
      cases o with
      | none =>
        simp [drainFrom, tryBody, callCb, hb, invokesOf, isInvoke, allInvokes, ihA, ihB]
      | some f =>
        cases f with
        | exc =>
          simp [drainFrom, tryBody, callCb, hb, invokesOf, isInvoke, allInvokes, ihA, ihB]
        | base => rw [hb] at hx; simp [propagatesBase] at hx

/-- Claim C10: if a callback raises a `BaseException` that is not an
`Exception` (e.g. `KeyboardInterrupt`), the drain aborts at that callback:
the callbacks before it and it itself are invoked, none after it is, and the
exception propagates out of the runner. -/
theorem base_exception_aborts_drain (pre : List Cb) (c : Cb) (post : List Cb)
    (h1 : pre.all noBaseCb = true) (h2 : propagatesBase c.behavior = true) :
    (run_asyncio_atexits (pre ++ c :: post)).2.2 = some Failure.base ∧
    invokesOf (run_asyncio_atexits (pre ++ c :: post)).1 = allInvokes 0 (pre.length + 1) := by
  rw [run_asyncio_atexits]
  exact drainFrom_base_abort pre c post 0 (all_noBaseCb_forall h1) h2

theorem base_exception_aborts_drain_witness :
    ([Cb.mk 0 CbBehavior.returnsValue].all noBaseCb = true) ∧
    (propagatesBase (CbBehavior.raises Failure.base) = true) ∧
    ((run_asyncio_atexits
        ([Cb.mk 0 CbBehavior.returnsValue] ++
          Cb.mk 1 (CbBehavior.raises Failure.base) ::
            [Cb.mk 2 CbBehavior.returnsValue])).2.2 = some Failure.base ∧
     invokesOf (run_asyncio_atexits
        ([Cb.mk 0 CbBehavior.returnsValue] ++
          Cb.mk 1 (CbBehavior.raises Failure.base) ::
            [Cb.mk 2 CbBehavior.returnsValue])).1 = allInvokes 0 2) :=
  ⟨by decide, by decide,
   base_exception_aborts_drain [Cb.mk 0 CbBehavior.returnsValue]
     (Cb.mk 1 (CbBehavior.raises Failure.base)) [Cb.mk 2 CbBehavior.returnsValue]
     (by decide) (by decide)⟩

/-- What a close-function reference designates: the loop's original
(unpatched) `close`, or the patched close installed by `_register_loop`
(`partial(_asyncio_atexit_close, loop)` in the source). -/
inductive CloseFn
  | orig
  | patched
deriving DecidableEq, Repr

/-- Outcome of calling a close function: returned normally; raised a
failure; or the call re-entered the patched close (what a wrongly captured
close reference would cause — never reached in correct operation). -/
inductive CloseOutcome
  | ok
  | raised (f : Failure)
  | reentered
deriving DecidableEq, Repr

/-- The error surfaced by the public API: `asyncio.get_running_loop` raised
because no loop is given and none is running (the spec's
`NoRunningLoopError`). -/
inductive ApiError
  | noRunningLoop
deriving DecidableEq, Repr

/-- The state the module keeps for one event loop, together with the loop's
own patched attributes.

* `loopAlive`: the loop object has not been garbage-collected (the weakref
  `loop_ref` still resolves).
* `running`: this loop is the currently running loop
  (`asyncio.get_running_loop()` returns it).
* `origCloseRaises`: behaviour of the loop's original `close()` — black box;
  `some f` means it raises `f` when invoked.
* `closeAttr`: the current `loop.close` attribute.
* `atexitOrigClose`: the `loop._atexit_orig_close` attribute, if set.
* `registered`: `loop in _registry` (the `WeakKeyDictionary`).
* `callbacks`: the registry entry's `callbacks` list.
* `close_ref`: what the entry's `_close_ref` resolves to.
* `atexitHook`: the entry's `_atexit_handle` is currently registered with
  `atexit`.
* `entriesCreated` / `origCaptured`: instrumentation counting constructions
  of `_RegistryEntry` for this loop and assignments to
  `loop._atexit_orig_close`.
* `stderr`: the diagnostic stream. -/
structure LoopWorld where
  loopAlive : Bool
  running : Bool
  origCloseRaises : Option Failure
  closeAttr : CloseFn
  atexitOrigClose : Option CloseFn
  registered : Bool
  callbacks : List Cb
  close_ref : CloseFn
  atexitHook : Bool
  entriesCreated : Nat
  origCaptured : Nat
  stderr : List Diag
deriving DecidableEq, Repr

/-- A fresh, never-registered loop: unpatched close, no
`_atexit_orig_close` attribute, not in the registry, no atexit hook. -/
def initWorld (running alive : Bool) (origCloseRaises : Option Failure) : LoopWorld :=
  { loopAlive := alive
    running := running
    origCloseRaises := origCloseRaises
    closeAttr := CloseFn.orig
    atexitOrigClose := none
    registered := false
    callbacks := []
    close_ref := CloseFn.orig
    atexitHook := false
    entriesCreated := 0
    origCaptured := 0
    stderr := [] }

/-- Embeds `_RegistryEntry.__init__(self, loop)`: capture
`loop._atexit_orig_close` unless already set (the double-patch guard), point
`_close_ref` at that captured close (the `WeakMethod` and its strong-ref
fallback both resolve to the attribute's value, which is never reassigned
once set), start with an empty callback list, and register the atexit
handle. -/
def _RegistryEntry_init (w : LoopWorld) : LoopWorld :=
  let w1 :=
    if w.atexitOrigClose = none then
      { w with atexitOrigClose := some w.closeAttr, origCaptured := w.origCaptured + 1 }
    else w
  { w1 with
    close_ref := w1.atexitOrigClose.getD w1.closeAttr
    callbacks := []
    atexitHook := true
    entriesCreated := w1.entriesCreated + 1 }

/-- Embeds `_register_loop(loop)`: return if the loop is already in the
registry; otherwise store a new `_RegistryEntry` and patch `loop.close`. -/
def _register_loop (w : LoopWorld) : LoopWorld :=
  if w.registered then w
  else
    let w1 := _RegistryEntry_init w
    { w1 with registered := true, closeAttr := CloseFn.patched }

/-- Embeds `_get_entry(loop)`: when no loop is given, resolve the running
loop (`get_running_loop` raises when there is none); then ensure the loop is
registered. -/
def _get_entry (loopGiven : Bool) (w : LoopWorld) : Except ApiError LoopWorld :=
  if !loopGiven && !w.running then Except.error ApiError.noRunningLoop
  else Except.ok (_register_loop w)

/-- Embeds `register(callback, loop=...)`: fetch (or create) the entry and
append the callback to its list. -/
def register (c : Cb) (loopGiven : Bool) (w : LoopWorld) : Except ApiError LoopWorld :=
  match _get_entry loopGiven w with
  | Except.error e => Except.error e
  | Except.ok w1 => Except.ok { w1 with callbacks := w1.callbacks ++ [c] }

/-- Embeds `list.remove(x)`: drop the first occurrence, or fail with
`ValueError` (`none`) when absent. -/
def removeFirst (c : Cb) : List Cb → Option (List Cb)
  | [] => none
  | x :: xs => if x = c then some xs else Option.map (fun l => x :: l) (removeFirst c xs)

/-- The `while True: try: callbacks.remove(callback) except ValueError:
break` loop of `unregister`, with explicit fuel; each successful `remove`
shortens the list, so `l.length` fuel always suffices. -/
def removeAllFuel (c : Cb) : Nat → List Cb → List Cb
  | 0, l => l
  | fuel + 1, l =>
    match removeFirst c l with
    | none => l
    | some l2 => removeAllFuel c fuel l2

/-- All occurrences of `c` removed, the way `unregister` does it. -/
def removeAll (c : Cb) (l : List Cb) : List Cb := removeAllFuel c l.length l

/-- Embeds `unregister(callback, loop=...)`: fetch (or create) the entry,
remove every occurrence of the callback, and if the list is now empty also
unregister the entry's atexit handle (`entry._unregister()`). -/
def unregister (c : Cb) (loopGiven : Bool) (w : LoopWorld) : Except ApiError LoopWorld :=
  match _get_entry loopGiven w with
  | Except.error e => Except.error e
  | Except.ok w1 =>
    let w2 := { w1 with callbacks := removeAll c w1.callbacks }
    if w2.callbacks.isEmpty then Except.ok { w2 with atexitHook := false }
    else Except.ok w2

/-- The loop's original `close()` as a black box: returns normally or raises
the configured failure. -/
def callOrigClose (w : LoopWorld) : LoopWorld × CloseOutcome :=
  match w.origCloseRaises with
  | none => (w, CloseOutcome.ok)
  | some f => (w, CloseOutcome.raised f)

/-- Embeds `_RegistryEntry.close(self)`: `self._unregister()` (drop the
atexit handle), then call `self._close_ref()()`.  A `_close_ref` designating
the patched close would re-enter it; the no-chain invariant proves this
never happens. -/
def _RegistryEntry_close (w : LoopWorld) : LoopWorld × CloseOutcome :=
  let w1 := { w with atexitHook := false }
  match w1.close_ref with
  | CloseFn.orig => callOrigClose w1
  | CloseFn.patched => (w1, CloseOutcome.reentered)

/-- Embeds `_asyncio_atexit_close(loop)`, the patched `loop.close`:
`entry = _get_entry(loop)` (the loop is passed explicitly, so no
running-loop lookup); if the callback list is non-empty, run
`_run_asyncio_atexits` to completion on the loop (a `BaseException` raised
there escapes `run_until_complete` and aborts the close before the list is
cleared); then clear the list and defer to `entry.close()`.  Besides the
final state and outcome, the drain's event trace of this attempt is
returned. -/
def _asyncio_atexit_close (w0 : LoopWorld) : LoopWorld × CloseOutcome × List Ev :=
  let w := _register_loop w0
  if w.callbacks.isEmpty then
    let w1 := { w with callbacks := [] }
    let r := _RegistryEntry_close w1
    (r.1, r.2, [])
  else
    let d := drainFrom 0 w.callbacks
    let w1 := { w with stderr := w.stderr ++ d.2.1 }
    match d.2.2 with
    | some f => (w1, CloseOutcome.raised f, d.1)
    | none =>
      let w2 := { w1 with callbacks := [] }
      let r := _RegistryEntry_close w2
      (r.1, r.2, d.1)

/-- Calling `loop.close()` through whatever the attribute currently holds. -/
def callClose (w : LoopWorld) : LoopWorld × CloseOutcome × List Ev :=
  match w.closeAttr with
  | CloseFn.patched => _asyncio_atexit_close w
  | CloseFn.orig =>
    let r := callOrigClose w
    (r.1, r.2, [])

/-- Embeds `_atexit_close_loop(loop_ref)`, the process-exit hook: resolve
the weak reference and return silently if the loop is gone; otherwise call
`loop.close()`, catching any `Exception` and printing a diagnostic; a
non-`Exception` `BaseException` is not caught.  (`reentered` is unreachable
under the no-chain invariant and treated as a normal return.) -/
def _atexit_close_loop (w : LoopWorld) : LoopWorld × Option Failure :=
  if w.loopAlive = false then (w, none)
  else
    let r := callClose w
    match r.2.1 with
    | CloseOutcome.raised Failure.exc =>
      ({ r.1 with stderr := r.1.stderr ++ [Diag.closeError] }, none)
    | CloseOutcome.raised Failure.base => (r.1, some Failure.base)
    | CloseOutcome.ok => (r.1, none)
    | CloseOutcome.reentered => (r.1, none)

/-- A public-API call against one loop: the callback and whether the loop
was passed explicitly (`loop=...`) rather than resolved from the running
loop. -/
inductive Op
  | register (c : Cb) (loopGiven : Bool)
  | unregister (c : Cb) (loopGiven : Bool)
deriving DecidableEq, Repr

/-- Apply one public-API call; a raised `NoRunningLoopError` propagates to
the caller and leaves the state unchanged. -/
def applyOp (w : LoopWorld) : Op → LoopWorld
  | Op.register c g =>
    match register c g w with
    | Except.ok w2 => w2
    | Except.error _ => w
  | Op.unregister c g =>
    match unregister c g w with
    | Except.ok w2 => w2
    | Except.error _ => w

/-- Apply a sequence of public-API calls in order. -/
def applyOps (w : LoopWorld) (ops : List Op) : LoopWorld := ops.foldl applyOp w

/-- Modelled from the spec: the callback list with all occurrences of `c`
removed (identity/equality match), order of the survivors preserved. -/
def removedAll (c : Cb) (l : List Cb) : List Cb := l.filter (fun x => x != c)

/-- The callbacks list of an `Except`-valued API result, when it succeeded. -/
def okCallbacks : Except ApiError LoopWorld → Option (List Cb)
  | Except.ok w => some w.callbacks
  | Except.error _ => none

/-- Did the API call raise the no-running-loop error? -/
def isNoLoopError : Except ApiError LoopWorld → Bool
  | Except.error ApiError.noRunningLoop => true
  | _ => false

lemma removeFirst_none {c : Cb} :
    ∀ {l : List Cb}, removeFirst c l = none → removedAll c l = l := by
  intro l
  induction l with
  | nil => intro _; rfl
  | cons x xs ih =>
    intro h
    rw [removeFirst] at h
    by_cases hx : x = c
    · rw [if_pos hx] at h; cases h
    · rw [if_neg hx, Option.map_eq_none'] at h
      have h2 := ih h
      simp only [removedAll, List.filter_cons] at h2 ⊢
      simp [bne_iff_ne, hx, h2]

lemma removeFirst_some {c : Cb} :
    ∀ {l l2 : List Cb}, removeFirst c l = some l2 →
      removedAll c l = removedAll c l2 ∧ l2.length < l.length := by
  intro l
  induction l with
  | nil => intro l2 h; cases h
  | cons x xs ih =>
    intro l2 h
    rw [removeFirst] at h
    by_cases hx : x = c
    · rw [if_pos hx] at h
      cases h
      subst hx
      refine ⟨?_, by simp⟩
      simp [removedAll, List.filter_cons]
    · rw [if_neg hx] at h
      cases hr : removeFirst c xs with
      | none => rw [hr] at h; cases h
      | some ys =>
        rw [hr] at h
        simp only [Option.map_some'] at h
        cases h
        obtain ⟨hA, hB⟩ := ih hr
        refine ⟨?_, by simpa using hB⟩
        simp only [removedAll, List.filter_cons] at hA ⊢
        simp [bne_iff_ne, hx, hA]

lemma removeAllFuel_eq (c : Cb) :
    ∀ fuel : Nat, ∀ l : List Cb, l.length ≤ fuel →
      removeAllFuel c fuel l = removedAll c l := by
  intro fuel
  induction fuel with
  | zero =>
    intro l hl
    have : l = [] := List.eq_nil_of_length_eq_zero (Nat.le_zero.mp hl)
    subst this
    rfl
  | succ n ih =>
    intro l hl
    cases hr : removeFirst c l with
    | none => rw [removeAllFuel, hr]; exact (removeFirst_none hr).symm
    | some l2 =>
      obtain ⟨hA, hB⟩ := removeFirst_some hr
      rw [removeAllFuel, hr]
      exact (ih l2 (Nat.le_of_lt_succ (Nat.lt_of_lt_of_le hB hl))).trans hA.symm

/-- The `while`/`remove` loop of `unregister` computes exactly the spec's
remove-all-occurrences. -/
lemma removeAll_eq_removedAll (c : Cb) (l : List Cb) :
    removeAll c l = removedAll c l :=
  removeAllFuel_eq c l.length l (Nat.le_refl _)

lemma not_mem_removedAll (c : Cb) (l : List Cb) : c ∉ removedAll c l := by
  intro h
  rw [removedAll, List.mem_filter] at h
  simp at h

lemma removedAll_of_not_mem {c : Cb} {l : List Cb} (h : c ∉ l) :
    removedAll c l = l := by
  rw [removedAll]
  refine List.filter_eq_self.mpr ?_
  intro x hx
  simp only [bne_iff_ne]
  intro hxc
  exact h (hxc ▸ hx)

lemma _get_entry_ok (g : Bool) (w : LoopWorld) (h : g = true ∨ w.running = true) :
    _get_entry g w = Except.ok (_register_loop w) := by
  rcases h with h | h <;> simp [_get_entry, h]

/-- Claim C5: `unregister` removes all occurrences of the callback from the
loop's callback list (not only the first), the resulting list no longer
contains it, and an absent callback makes the call a silent no-op on the
list (and never an error). -/
theorem unregister_removes_all_occurrences (c : Cb) (g : Bool) (w : LoopWorld)
    (h : g = true ∨ w.running = true) :
    okCallbacks (unregister c g w) = some (removedAll c (_register_loop w).callbacks) ∧
    c ∉ removedAll c (_register_loop w).callbacks ∧
    (c ∉ (_register_loop w).callbacks →
      okCallbacks (unregister c g w) = some ((_register_loop w).callbacks)) := by
  have h1 : okCallbacks (unregister c g w) =
      some (removedAll c (_register_loop w).callbacks) := by
    rw [unregister, _get_entry_ok g w h]
    simp only [removeAll_eq_removedAll]
    by_cases he : (removedAll c (_register_loop w).callbacks).isEmpty = true
    · simp [he, okCallbacks]
    · simp only [Bool.not_eq_true] at he
      simp [he, okCallbacks]
  refine ⟨h1, not_mem_removedAll c _, fun hmem => ?_⟩
  rw [h1, removedAll_of_not_mem hmem]

theorem unregister_removes_all_occurrences_witness :
    (true = true ∨
      (applyOps (initWorld true true none)
        [Op.register (Cb.mk 1 CbBehavior.returnsValue) true,
         Op.register (Cb.mk 2 (CbBehavior.returnsAwaitable none)) true,
         Op.register (Cb.mk 1 CbBehavior.returnsValue) true]).running = true) ∧
    okCallbacks (unregister (Cb.mk 1 CbBehavior.returnsValue) true
        (applyOps (initWorld true true none)
          [Op.register (Cb.mk 1 CbBehavior.returnsValue) true,
           Op.register (Cb.mk 2 (CbBehavior.returnsAwaitable none)) true,
           Op.register (Cb.mk 1 CbBehavior.returnsValue) true])) =
      some [Cb.mk 2 (CbBehavior.returnsAwaitable none)] ∧
    okCallbacks (unregister (Cb.mk 3 (CbBehavior.raises Failure.exc)) true
        (applyOps (initWorld true true none)
          [Op.register (Cb.mk 1 CbBehavior.returnsValue) true,
           Op.register (Cb.mk 2 (CbBehavior.returnsAwaitable none)) true,
           Op.register (Cb.mk 1 CbBehavior.returnsValue) true])) =
      some (_register_loop (applyOps (initWorld true true none)
          [Op.register (Cb.mk 1 CbBehavior.returnsValue) true,
           Op.register (Cb.mk 2 (CbBehavior.returnsAwaitable none)) true,
           Op.register (Cb.mk 1 CbBehavior.returnsValue) true])).callbacks := by
  refine ⟨Or.inl rfl, ?_, ?_⟩
  · have h := (unregister_removes_all_occurrences (Cb.mk 1 CbBehavior.returnsValue) true
      (applyOps (initWorld true true none)
        [Op.register (Cb.mk 1 CbBehavior.returnsValue) true,
         Op.register (Cb.mk 2 (CbBehavior.returnsAwaitable none)) true,
         Op.register (Cb.mk 1 CbBehavior.returnsValue) true]) (Or.inl rfl)).1
    rw [h]
    decide
  · exact (unregister_removes_all_occurrences (Cb.mk 3 (CbBehavior.raises Failure.exc)) true
      (applyOps (initWorld true true none)
        [Op.register (Cb.mk 1 CbBehavior.returnsValue) true,
         Op.register (Cb.mk 2 (CbBehavior.returnsAwaitable none)) true,
         Op.register (Cb.mk 1 CbBehavior.returnsValue) true]) (Or.inl rfl)).2.2 (by decide)

/-- Claim C6: `register` and `unregister` raise `NoRunningLoopError` exactly
when no loop is given and none is running; otherwise they succeed, and
`register` appends the callback to the resolved loop's callback list. -/
theorem api_requires_running_loop (c : Cb) (g : Bool) (w : LoopWorld) :
    isNoLoopError (register c g w) = (!g && !w.running) ∧
    isNoLoopError (unregister c g w) = (!g && !w.running) ∧
    okCallbacks (register c g w) =
      (if !g && !w.running then none
       else some ((_register_loop w).callbacks ++ [c])) := by
  by_cases hg : (!g && !w.running) = true
  · simp [register, unregister, _get_entry, hg, isNoLoopError, okCallbacks]
  · simp only [Bool.not_eq_true] at hg
    refine ⟨?_, ?_, ?_⟩
    · simp [register, _get_entry, hg, isNoLoopError]
    · rw [unregister, _get_entry, hg]
      simp only [Bool.false_eq_true, if_false]
      split <;> simp [isNoLoopError, hg]
    · simp [register, _get_entry, hg, okCallbacks]

/-- The registration invariant: a registered loop has exactly one entry
construction and one capture of the original close behind it, its
`_atexit_orig_close` attribute and the entry's `_close_ref` designate the
genuine original close (never the patched one — no interceptor chain), and
its `close` attribute is the single patched wrapper; an unregistered loop is
untouched. -/
def regInv (w : LoopWorld) : Prop :=
  (w.registered = true →
    w.entriesCreated = 1 ∧ w.origCaptured = 1 ∧
    w.atexitOrigClose = some CloseFn.orig ∧
    w.close_ref = CloseFn.orig ∧ w.closeAttr = CloseFn.patched) ∧
  (w.registered = false →
    w.entriesCreated = 0 ∧ w.origCaptured = 0 ∧
    w.atexitOrigClose = none ∧
    w.close_ref = CloseFn.orig ∧ w.closeAttr = CloseFn.orig)

lemma regInv_initWorld (running alive : Bool) (origCloseRaises : Option Failure) :
    regInv (initWorld running alive origCloseRaises) := by
  refine ⟨fun h => ?_, fun _ => ?_⟩
  · simp [initWorld] at h
  · simp [initWorld]

lemma regInv_register_loop {w : LoopWorld} (h : regInv w) :
    regInv (_register_loop w) := by
  by_cases hr : w.registered = true
  · rw [_register_loop, if_pos hr]; exact h
  · have hr2 : w.registered = false := by simpa using hr
    obtain ⟨_, _, ha, _, hc⟩ := h.2 hr2
    rw [_register_loop, if_neg hr]
    refine ⟨fun _ => ?_, fun h2 => ?_⟩
    · simp [_RegistryEntry_init, ha, hc, h.2 hr2]
    · simp [_RegistryEntry_init] at h2

lemma _get_entry_ok_eq {g : Bool} {w w1 : LoopWorld}
    (he : _get_entry g w = Except.ok w1) : w1 = _register_loop w := by
  rw [_get_entry] at he
  by_cases hg : (!g && !w.running) = true
  · rw [if_pos hg] at he; cases he
  · rw [if_neg hg] at he; cases he; rfl

lemma regInv_register {w w2 : LoopWorld} (h : regInv w) {c : Cb} {g : Bool}
    (hu : register c g w = Except.ok w2) : regInv w2 := by
  rw [register] at hu
  cases he : _get_entry g w with
  | error e => rw [he] at hu; cases hu
  | ok w1 =>
    rw [he] at hu
    simp only at hu
    cases hu
    have := regInv_register_loop h
    rw [_get_entry_ok_eq he]
    exact this

lemma regInv_unregister {w w2 : LoopWorld} (h : regInv w) {c : Cb} {g : Bool}
    (hu : unregister c g w = Except.ok w2) : regInv w2 := by
  rw [unregister] at hu
  cases he : _get_entry g w with
  | error e => rw [he] at hu; cases hu
  | ok w1 =>
    rw [he] at hu
    simp only at hu
    have hreg : regInv (_register_loop w) := regInv_register_loop h
    rw [_get_entry_ok_eq he] at hu
    split at hu <;> cases hu <;> exact hreg

lemma regInv_applyOp {w : LoopWorld} (h : regInv w) (op : Op) :
    regInv (applyOp w op) := by
  cases op with
  | register c g =>
    rw [applyOp]
    cases hu : register c g w with
    | error e => exact h
    | ok w2 => exact regInv_register h hu
  | unregister c g =>
    rw [applyOp]
    cases hu : unregister c g w with
    | error e => exact h
    | ok w2 => exact regInv_unregister h hu

lemma regInv_applyOps : ∀ (ops : List Op) (w : LoopWorld), regInv w → regInv (applyOps w ops) := by
  intro ops
  induction ops with
  | nil => intro w h; exact h
  | cons op rest ih =>
    intro w h
    rw [applyOps, List.foldl_cons]
    exact ih (applyOp w op) (regInv_applyOp h op)

/-- Claim C4: over any sequence of `register`/`unregister` calls against a
fresh loop, at most one registry entry is ever constructed, the original
close is captured at most once (and, once captured, `_atexit_orig_close`
still designates it), and the entry's close reference always designates the
original close — so the patched close is a single interceptor, never a
chain of wrappers. -/
theorem registration_idempotent_no_chain (ops : List Op) (running alive : Bool)
    (origCloseRaises : Option Failure) :
    (applyOps (initWorld running alive origCloseRaises) ops).entriesCreated ≤ 1 ∧
    (applyOps (initWorld running alive origCloseRaises) ops).origCaptured ≤ 1 ∧
    (applyOps (initWorld running alive origCloseRaises) ops).close_ref = CloseFn.orig ∧
    ((applyOps (initWorld running alive origCloseRaises) ops).atexitOrigClose = none ∨
     (applyOps (initWorld running alive origCloseRaises) ops).atexitOrigClose =
       some CloseFn.orig) := by
  have h := regInv_applyOps ops (initWorld running alive origCloseRaises)
    (regInv_initWorld running alive origCloseRaises)
  by_cases hr : (applyOps (initWorld running alive origCloseRaises) ops).registered = true
  · obtain ⟨he, hc, ha, hcr, _⟩ := h.1 hr
    exact ⟨by omega, by omega, hcr, Or.inr ha⟩
  · have hr2 : (applyOps (initWorld running alive origCloseRaises) ops).registered = false := by
      simpa using hr
    obtain ⟨he, hc, ha, hcr, _⟩ := h.2 hr2
    exact ⟨by omega, by omega, hcr, Or.inl ha⟩

lemma callOrigClose_fst (w : LoopWorld) : (callOrigClose w).1 = w := by
  rw [callOrigClose]
  cases h : w.origCloseRaises <;> simp

lemma _RegistryEntry_close_fst (w : LoopWorld) :
    (_RegistryEntry_close w).1 = { w with atexitHook := false } := by
  rw [_RegistryEntry_close]
  cases h : w.close_ref with
  | orig => simp [h, callOrigClose_fst]
  | patched => simp [h]

lemma _register_loop_registered (w : LoopWorld) : (_register_loop w).registered = true := by
  rw [_register_loop]
  by_cases hr : w.registered = true
  · rw [if_pos hr]; exact hr
  · rw [if_neg hr]

lemma _register_loop_callbacks (w : LoopWorld) :
    (_register_loop w).callbacks = if w.registered = true then w.callbacks else [] := by
  by_cases hr : w.registered = true
  · rw [_register_loop, if_pos hr, if_pos hr]
  · rw [_register_loop, if_neg hr, if_neg hr]
    simp [_RegistryEntry_init]

lemma drain_none_of_all (w : LoopWorld) (h : w.callbacks.all noBaseCb = true) :
    (drainFrom 0 (_register_loop w).callbacks).2.2 = none := by
  rw [_register_loop_callbacks]
  by_cases hr : w.registered = true
  · rw [if_pos hr, drainFrom_noBase w.callbacks 0 (all_noBaseCb_forall h)]
  · rw [if_neg hr]; rfl

lemma _asyncio_atexit_close_state (w : LoopWorld)
    (hd : (drainFrom 0 (_register_loop w).callbacks).2.2 = none) :
    ((_asyncio_atexit_close w).1).callbacks = [] ∧
    ((_asyncio_atexit_close w).1).registered = true ∧
    ((_asyncio_atexit_close w).1).atexitHook = false := by
  have hreg := _register_loop_registered w
  rw [_asyncio_atexit_close]
  split
  · rw [_RegistryEntry_close_fst]
    simp [hreg]
  · simp only [hd]
    rw [_RegistryEntry_close_fst]
    simp [hreg]

lemma close_trace_of_empty {v : LoopWorld} (hreg : v.registered = true)
    (hcb : v.callbacks = []) : (_asyncio_atexit_close v).2.2 = [] := by
  have h1 : _register_loop v = v := by rw [_register_loop, if_pos hreg]
  rw [_asyncio_atexit_close, h1]
  simp [hcb]

/-- Claim C3: after a closure attempt through the patched close, the loop's
callback list is empty — whether the drain succeeded fully or partially
(i.e. with reported `Exception` failures) — so a second closure attempt
drains nothing and no callback runs twice across attempts. -/
theorem close_clears_callbacks_no_rerun (w : LoopWorld)
    (h : w.callbacks.all noBaseCb = true) :
    ((_asyncio_atexit_close w).1).callbacks = [] ∧
    (_asyncio_atexit_close ((_asyncio_atexit_close w).1)).2.2 = [] := by
  obtain ⟨hcb, hreg, _⟩ := _asyncio_atexit_close_state w (drain_none_of_all w h)
  exact ⟨hcb, close_trace_of_empty hreg hcb⟩

theorem close_clears_callbacks_no_rerun_witness :
    ((applyOps (initWorld true true none)
        [Op.register (Cb.mk 3 (CbBehavior.raises Failure.exc)) true,
         Op.register (Cb.mk 2 (CbBehavior.returnsAwaitable none)) true]).callbacks.all
      noBaseCb = true) ∧
    (((_asyncio_atexit_close (applyOps (initWorld true true none)
        [Op.register (Cb.mk 3 (CbBehavior.raises Failure.exc)) true,
         Op.register (Cb.mk 2 (CbBehavior.returnsAwaitable none)) true])).1).callbacks = [] ∧
     (_asyncio_atexit_close ((_asyncio_atexit_close (applyOps (initWorld true true none)
        [Op.register (Cb.mk 3 (CbBehavior.raises Failure.exc)) true,
         Op.register (Cb.mk 2 (CbBehavior.returnsAwaitable none)) true])).1)).2.2 = []) :=
  ⟨by decide,
   close_clears_callbacks_no_rerun (applyOps (initWorld true true none)
     [Op.register (Cb.mk 3 (CbBehavior.raises Failure.exc)) true,
      Op.register (Cb.mk 2 (CbBehavior.returnsAwaitable none)) true]) (by decide)⟩

/-- Claim C7 (evaluated at the failing input): registering a callback
installs the process-exit fallback; unregistering it empties the list and
deregisters the fallback; but a subsequent `register` for the same loop does
NOT reinstall the fallback (`_register_loop` returns early because the loop
is still in the registry), even though a new callback is now registered. -/
theorem reregister_leaves_exit_fallback_uninstalled :
    (applyOps (initWorld true true none)
      [Op.register (Cb.mk 1 CbBehavior.returnsValue) true]).atexitHook = true ∧
    (applyOps (initWorld true true none)
      [Op.register (Cb.mk 1 CbBehavior.returnsValue) true,
       Op.unregister (Cb.mk 1 CbBehavior.returnsValue) true]).atexitHook = false ∧
    (applyOps (initWorld true true none)
      [Op.register (Cb.mk 1 CbBehavior.returnsValue) true,
       Op.unregister (Cb.mk 1 CbBehavior.returnsValue) true,
       Op.register (Cb.mk 2 (CbBehavior.returnsAwaitable none)) true]).atexitHook = false ∧
    (applyOps (initWorld true true none)
      [Op.register (Cb.mk 1 CbBehavior.returnsValue) true,
       Op.unregister (Cb.mk 1 CbBehavior.returnsValue) true,
       Op.register (Cb.mk 2 (CbBehavior.returnsAwaitable none)) true]).callbacks =
      [Cb.mk 2 (CbBehavior.returnsAwaitable none)] := by
  decide

/-- Claim C8: a closure attempt through the patched close that reaches the
original close (the drain completes without a propagating
non-`Exception`) leaves the loop's process-exit hook deregistered, so the
fallback cannot force a second closure. -/
theorem normal_close_removes_exit_hook (w : LoopWorld)
    (h : w.callbacks.all noBaseCb = true) :
    ((_asyncio_atexit_close w).1).atexitHook = false :=
  (_asyncio_atexit_close_state w (drain_none_of_all w h)).2.2

theorem normal_close_removes_exit_hook_witness :
    ((applyOps (initWorld true true none)
        [Op.register (Cb.mk 2 (CbBehavior.returnsAwaitable none)) true]).callbacks.all
      noBaseCb = true) ∧
    ((applyOps (initWorld true true none)
        [Op.register (Cb.mk 2 (CbBehavior.returnsAwaitable none)) true]).atexitHook = true) ∧
    ((_asyncio_atexit_close (applyOps (initWorld true true none)
        [Op.register (Cb.mk 2 (CbBehavior.returnsAwaitable none)) true])).1).atexitHook =
      false :=
  ⟨by decide, by decide,
   normal_close_removes_exit_hook (applyOps (initWorld true true none)
     [Op.register (Cb.mk 2 (CbBehavior.returnsAwaitable none)) true]) (by decide)⟩

/-- Claim C9: the process-exit hook holds only a weak reference to the loop —
if the loop has been collected the hook returns with no effect and no
error; and an `Exception` raised by the forced `loop.close()` is caught and
reported to the diagnostic stream, never propagated out of the hook. -/
theorem exit_hook_skips_dead_loop_and_catches (w : LoopWorld) :
    (w.loopAlive = false → _atexit_close_loop w = (w, none)) ∧
    (w.loopAlive = true → (callClose w).2.1 = CloseOutcome.raised Failure.exc →
      (_atexit_close_loop w).2 = none ∧
      (_atexit_close_loop w).1.stderr = (callClose w).1.stderr ++ [Diag.closeError]) := by
  constructor
  · intro h
    rw [_atexit_close_loop, if_pos h]
  · intro ha hr
    rw [_atexit_close_loop, if_neg (by simp [ha])]
    simp [hr]

theorem exit_hook_skips_dead_loop_and_catches_witness :
    _atexit_close_loop (initWorld true false none) = (initWorld true false none, none) ∧
    ((_atexit_close_loop (initWorld true true (some Failure.exc))).2 = none ∧
     (_atexit_close_loop (initWorld true true (some Failure.exc))).1.stderr =
       (callClose (initWorld true true (some Failure.exc))).1.stderr ++ [Diag.closeError]) :=
  ⟨(exit_hook_skips_dead_loop_and_catches (initWorld true false none)).1 rfl,
   (exit_hook_skips_dead_loop_and_catches (initWorld true true (some Failure.exc))).2
     rfl (by decide)⟩

end AsyncioAtexit
